import Mathlib

/-!
Verification development for the meetingology meeting-minutes bot
(src/meeting.py, src/items.py, src/writers.py, src/plugin.py,
src/meetingLocalConfig.py), shallowly embedded in Lean.

Modelling conventions:
* Python `time.struct_time` values are represented by their rendered
  "HH:MM" strings (the only use the code makes of them is
  `time.strftime("%H:%M", t)`); `time.localtime()` inside a handler is
  represented by the timestamp of the line being processed.
* Python dicts (which preserve insertion order) are association lists;
  updates keep the position of an existing key and append new keys.
* Channel I/O (`reply`, `topic`, file saving) carries no session state
  and is dropped.
* Regular expressions are translated to explicit character scanners.
-/

set_option maxHeartbeats 1000000

namespace Meetingology

/-- Python `str.lower()` (ASCII case folding), computed on the
character list so that it reduces by evaluation. -/
def strLower (s : String) : String := String.mk (s.data.map Char.toLower)

/-- Python `s[:n]` on a string (by code points), computed on the
character list so that it reduces by evaluation. -/
def strTake (s : String) (n : Nat) : String := String.mk (s.data.take n)

/-- `\w` of Python's `re` (ASCII approximation): letters, digits, underscore. -/
def isWordChar (c : Char) : Bool := c.isAlphanum || c == '_'

def isWordO : Option Char → Bool
  | none => false
  | some c => isWordChar c

/-- Python `str.rstrip()` on a character list. -/
def rstripWS (l : List Char) : List Char :=
  (l.reverse.dropWhile Char.isWhitespace).reverse

/-- Python `str.lstrip()` on a character list. -/
def lstripWS (l : List Char) : List Char := l.dropWhile Char.isWhitespace

/-- Python `line.strip('\x01')` in `Meeting.addrawline`. -/
def stripX01 (l : List Char) : List Char :=
  ((l.dropWhile (· == '\x01')).reverse.dropWhile (· == '\x01')).reverse

/-- `re.split('[, ]+', line)` with the empty tokens dropped, as every
caller of that split skips falsy tokens (`if not chair: continue`). -/
def splitCommaSpace (l : List Char) : List String :=
  (List.splitOnP (fun c => c == ',' || c == ' ') l).map String.mk
    |>.filter (fun s => s ≠ "")

/-- Python `line.split()`: split on whitespace runs, dropping empties. -/
def splitWS (l : List Char) : List String :=
  (List.splitOnP Char.isWhitespace l).map String.mk |>.filter (fun s => s ≠ "")

/-- `line.split('//')[0]`: the part of the line before the first `//`. -/
def beforeDoubleSlash : List Char → List Char
  | [] => []
  | '/' :: '/' :: _ => []
  | c :: rest => c :: beforeDoubleSlash rest

/-- `Config.UrlProtocols` (meeting.py). -/
def urlProtocols : List String :=
  ["http:", "https:", "irc:", "ftp:", "mailto:", "ssh:"]

/-- The effective command regex `^[#\[](\w+)\]?(?:\s+(.*?)|)\s*$`
(`Config.command_RE` as overridden by meetingLocalConfig.py, which is
merged into `Config` at import time).  Returns the command word and the
payload with trailing whitespace stripped, or `none` if the line is not
a command. -/
def parseCommand (l : List Char) : Option (String × String) :=
  match l with
  | [] => none
  | c :: rest =>
    if c == '#' || c == '[' then
      let cmd := rest.takeWhile isWordChar
      if cmd.isEmpty then none
      else
        let after0 := rest.dropWhile isWordChar
        let after := match after0 with
          | ']' :: t => t
          | t => t
        match after with
        | [] => some (String.mk cmd, "")
        | a :: _ =>
          if a.isWhitespace then
            some (String.mk cmd, String.mk (rstripWS (after.dropWhile Char.isWhitespace)))
          else none
    else none

/-- Does `s` start with the literal pattern `pat` followed by a `\b`
boundary?  `pat` always ends in a digit here, so the boundary holds iff
the next character is absent or a non-word character. -/
def startsBallotPat (pat : List Char) (s : List Char) : Bool :=
  s.take pat.length == pat && !(isWordO ((s.drop pat.length).head?))

/-- `re.match(r'([+-]1|[+-]?0)\b', line)` (meeting.py addline / plugin.py vote). -/
def isBallot (s : List Char) : Bool :=
  startsBallotPat ['+', '1'] s || startsBallotPat ['-', '1'] s ||
  startsBallotPat ['+', '0'] s || startsBallotPat ['-', '0'] s ||
  startsBallotPat ['0'] s

/-- `re.match(r'\+1\b', v)` in `do_endvote`. -/
def ballotPlus1 (v : String) : Bool := startsBallotPat ['+', '1'] v.data

/-- `re.match(r'-1\b', v)` in `do_endvote`. -/
def ballotMinus1 (v : String) : Bool := startsBallotPat ['-', '1'] v.data

/-- `re.match(r'[+-]?0\b', v)` in `do_endvote`. -/
def ballotZero (v : String) : Bool :=
  startsBallotPat ['+', '0'] v.data || startsBallotPat ['-', '0'] v.data ||
  startsBallotPat ['0'] v.data

/-- Python `int(line)` as used by `do_votesrequired`: optional
surrounding whitespace, optional sign, decimal digits possibly grouped
by single underscores.  Returns `none` where Python raises `ValueError`. -/
def pyDigits : List Char → Nat → Option Nat
  | [], acc => some acc
  | c :: cs, acc =>
    if c.isDigit then pyDigits cs (acc * 10 + (c.toNat - 48))
    else if c == '_' then
      match cs with
      | d :: _ => if d.isDigit then pyDigits cs acc else none
      | [] => none
    else none

def pyNat (l : List Char) : Option Nat :=
  match l with
  | d :: _ => if d.isDigit then pyDigits l 0 else none
  | [] => none

def pyInt (s : String) : Option Int :=
  let t := rstripWS (lstripWS s.data)
  match t with
  | '+' :: rest => (pyNat rest).map Int.ofNat
  | '-' :: rest => (pyNat rest).map (fun n => -(n : Int))
  | _ => (pyNat t).map Int.ofNat

def pyIntOr0 (s : String) : Int := (pyInt s).getD 0

/-! ## Association-list operations (Python dicts with insertion order) -/

def alookup {β : Type} : List (String × β) → String → Option β
  | [], _ => none
  | (a, b) :: t, k => if a = k then some b else alookup t k

/-- `d[k] = v`: overwrite in place, or append a new key at the end. -/
def aset {β : Type} : List (String × β) → String → β → List (String × β)
  | [], k, v => [(k, v)]
  | (a, b) :: t, k, v => if a = k then (k, v) :: t else (a, b) :: aset t k v

/-- `d[k].append(v)` for a dict of lists.  Python raises `KeyError` on a
missing key; that state is unreachable here because `do_vote` always
installs `publicVoters[activeVote] = []` before any cast, so the missing
key is modelled as creating the entry. -/
def pvAppend : List (String × List String) → String → String → List (String × List String)
  | [], k, v => [(k, [v])]
  | (a, b) :: t, k, v =>
    if a = k then (a, b ++ [v]) :: t else (a, b) :: pvAppend t k v

/-- `attendees.get(nick, 0)`. -/
def acount (l : List (String × Nat)) (n : String) : Nat := (alookup l n).getD 0

/-- `attendees[nick] = attendees.get(nick, 0) + lines` (`Meeting.addnick`). -/
def bump (l : List (String × Nat)) (n : String) (k : Nat) : List (String × Nat) :=
  aset l n (acount l n + k)

/-! ## Item model (items.py) -/

/-- The discriminant hierarchy of `_BaseItem`: each concrete subclass is
one tag (its Python `itemtype` string). -/
inductive ItemKind
  | topic | subtopic | info | idea | agreed | accepted | rejected
  | action | help | done | vote | link
deriving DecidableEq, Repr

/-- One minute item.  `topic` holds the payload of `Topic`/`Subtopic`,
`line` the payload of the `GenericItem` subclasses and `Link`'s
remainder, `url` is `Link`-only.  `assigned` is the transient
`m.assigned` attribute that the writers store on action items
(writers.py, `iterActionItemsNick` and friends); it is absent (false)
after creation. -/
structure MItem where
  kind : ItemKind
  nick : String
  topic : String := ""
  line : String := ""
  url : String := ""
  linenum : Nat
  time : String
  assigned : Bool := false
deriving DecidableEq, Repr

/-- `Topic.__init__` / `Subtopic.__init__`. -/
def mkTopicItem (k : ItemKind) (nick line : String) (linenum : Nat) (time_ : String) : MItem :=
  { kind := k, nick := nick, topic := line, linenum := linenum, time := time_ }

/-- `GenericItem.__init__` (Info, Idea, Agreed, Accepted, Rejected,
Action, Help, Done, Vote). -/
def mkGenericItem (k : ItemKind) (nick line : String) (linenum : Nat) (time_ : String) : MItem :=
  { kind := k, nick := nick, line := line, linenum := linenum, time := time_ }

/-- `Link.__init__`: `self.url, self.line = (line+' ').split(' ', 1)`
followed by `self.line = self.line.rstrip()`. -/
def mkLinkItem (nick line : String) (linenum : Nat) (time_ : String) : MItem :=
  let url := line.data.takeWhile (· ≠ ' ')
  let rest := rstripWS ((line.data.dropWhile (· ≠ ' ')).drop 1)
  { kind := .link, nick := nick, line := String.mk rest, url := String.mk url,
    linenum := linenum, time := time_ }

/-! ## Meeting session state (meeting.py, class Meeting) -/

/-- The mutable fields of a `Meeting` object that the embedded
operations read or write.  `chairs` and `voters` are dicts mapping nicks
to `True` in Python, so only their ordered key lists are kept.
`starttime`/`endtime` are the rendered timestamps, `none` when the
attribute is unset.  `isop` is the attribute set by `addline` before
dispatching (unset before the first line; modelled as `false`). -/
structure MeetingState where
  channel : String := ""
  network : String := "nonetwork"
  owner : String
  botNick : String := ""
  oldtopic : String := ""
  currenttopic : String := ""
  lines : List String := []
  minutes : List MItem := []
  attendees : List (String × Nat) := []
  chairs : List String := []
  voters : List String := []
  publicVoters : List (String × List String) := []
  votes : List (String × (String × Nat)) := []
  votesrequired : Int := 0
  activeVote : String := ""
  currentVote : List (String × String) := []
  currentVoteStartLine : Nat := 0
  meetingTopic : Option String := none
  meetingname : String := ""
  meetingIsOver : Bool := false
  lurk : Bool := false
  restrictlogs : Bool := false
  isop : Bool := false
  starttime : Option String := none
  endtime : Option String := none
deriving DecidableEq, Repr

/-- `Meeting.__init__` (the fields kept by the model). -/
def initMeeting (channel owner botNick oldtopic : String) : MeetingState :=
  { channel := channel, owner := owner, botNick := botNick, oldtopic := oldtopic }

/-- `Meeting.addnick`. -/
def addnick (st : MeetingState) (nick : String) (k : Nat) : MeetingState :=
  if nick ≠ st.botNick then { st with attendees := bump st.attendees nick k } else st

/-- `Meeting.isChair`. -/
def isChair (st : MeetingState) (nick : String) : Bool :=
  nick == st.owner || st.chairs.contains nick || st.isop

/-- `Meeting.additem`. -/
def additem (st : MeetingState) (m : MItem) : MeetingState :=
  { st with minutes := st.minutes ++ [m] }

/-- The log line built by `Meeting.addrawline`. -/
def mkLogline (nick line time_ : String) : String :=
  let l := stripX01 line.data
  if l.take 6 == "ACTION".data then
    time_ ++ " * " ++ nick ++ " " ++ String.mk (lstripWS (l.drop 7))
  else
    time_ ++ " <" ++ nick ++ "> " ++ String.mk l

/-- `Meeting.addrawline`: registers the speaker, appends the log line,
and returns the 1-based line number `len(self.lines)`. -/
def addrawline (st : MeetingState) (nick line time_ : String) : MeetingState × Nat :=
  let st1 := addnick st nick 1
  let st2 := { st1 with lines := st1.lines ++ [mkLogline nick line time_] }
  (st2, st2.lines.length)

/-- `Meeting.doCastVote`. -/
def doCastVote (st : MeetingState) (nick line : String) (private_ : Bool) : MeetingState :=
  if st.voters = [] ∨ st.voters.contains nick = true then
    if st.activeVote ≠ "" then
      let st1 := { st with currentVote := aset st.currentVote nick line }
      if private_ then st1
      else { st1 with publicVoters := pvAppend st1.publicVoters st1.activeVote nick }
    else st
  else st

/-! ## Command handlers (meeting.py, class MeetingCommands)

Channel replies and file saving are I/O and carry no session state, so a
handler's embedding is exactly its effect on the `Meeting` fields. -/

/-- `do_topic`. -/
def do_topic (st : MeetingState) (nick line : String) (linenum : Nat) (time_ : String) : MeetingState :=
  if isChair st nick then
    additem { st with currenttopic := line } (mkTopicItem .topic nick line linenum time_)
  else st

/-- `do_subtopic` (and its alias `do_progress`). -/
def do_subtopic (st : MeetingState) (nick line : String) (linenum : Nat) (time_ : String) : MeetingState :=
  if isChair st nick then
    additem st (mkTopicItem .subtopic nick line linenum time_)
  else st

/-- `do_meetingtopic`. -/
def do_meetingtopic (st : MeetingState) (nick line : String) : MeetingState :=
  if isChair st nick then
    if line = "" ∨ strLower line = "none" ∨ strLower line = "unset" then
      { st with meetingTopic := none }
    else { st with meetingTopic := some line }
  else st

/-- `do_save`. -/
def do_save (st : MeetingState) (nick time_ : String) : MeetingState :=
  if isChair st nick then { st with endtime := some time_ } else st

/-- `do_done`. -/
def do_done (st : MeetingState) (nick line : String) (linenum : Nat) (time_ : String) : MeetingState :=
  if isChair st nick then additem st (mkGenericItem .done nick line linenum time_) else st

/-- `do_agreed` (alias `do_agree`). -/
def do_agreed (st : MeetingState) (nick line : String) (linenum : Nat) (time_ : String) : MeetingState :=
  if isChair st nick then additem st (mkGenericItem .agreed nick line linenum time_) else st

/-- `do_accepted` (alias `do_accept`). -/
def do_accepted (st : MeetingState) (nick line : String) (linenum : Nat) (time_ : String) : MeetingState :=
  if isChair st nick then additem st (mkGenericItem .accepted nick line linenum time_) else st

/-- `do_rejected` (alias `do_reject`). -/
def do_rejected (st : MeetingState) (nick line : String) (linenum : Nat) (time_ : String) : MeetingState :=
  if isChair st nick then additem st (mkGenericItem .rejected nick line linenum time_) else st

/-- One iteration of `do_chair`'s loop over the split payload. -/
def chairStep (st : MeetingState) (tok : String) : MeetingState :=
  if st.chairs.contains tok then st
  else
    let st1 := addnick st tok 0
    { st1 with chairs := st1.chairs ++ [tok] }

/-- `do_chair`. -/
def do_chair (st : MeetingState) (nick line : String) : MeetingState :=
  if isChair st nick then (splitCommaSpace line.data).foldl chairStep st else st

/-- `do_unchair`. -/
def do_unchair (st : MeetingState) (nick line : String) : MeetingState :=
  if isChair st nick then
    (splitCommaSpace line.data).foldl
      (fun s tok => { s with chairs := s.chairs.filter (· ≠ tok) }) st
  else st

/-- `do_undo`. -/
def do_undo (st : MeetingState) (nick : String) : MeetingState :=
  if isChair st nick then
    if st.minutes = [] then st else { st with minutes := st.minutes.dropLast }
  else st

/-- `do_restrictlogs`. -/
def do_restrictlogs (st : MeetingState) (nick : String) : MeetingState :=
  if isChair st nick then { st with restrictlogs := true } else st

/-- `do_lurk`. -/
def do_lurk (st : MeetingState) (nick : String) : MeetingState :=
  if isChair st nick then { st with lurk := true } else st

/-- `do_unlurk`. -/
def do_unlurk (st : MeetingState) (nick : String) : MeetingState :=
  if isChair st nick then { st with lurk := false } else st

/-- `do_meetingname`: `"_".join(line.lower().split())`. -/
def do_meetingname (st : MeetingState) (nick line : String) : MeetingState :=
  if isChair st nick then
    { st with meetingname := String.intercalate "_" (splitWS (strLower line).data) }
  else st

/-- `do_vote`: opening a round while one is open is a no-op (notice only). -/
def do_vote (st : MeetingState) (nick line : String) : MeetingState :=
  if isChair st nick then
    if st.activeVote ≠ "" then st
    else
      { st with activeVote := line, currentVote := [],
                publicVoters := aset st.publicVoters line [],
                currentVoteStartLine := st.lines.length }
  else st

/-- `do_votesrequired`: a non-numeric payload coerces to 0. -/
def do_votesrequired (st : MeetingState) (nick line : String) : MeetingState :=
  if isChair st nick then { st with votesrequired := pyIntOr0 line } else st

/-- The tally loop of `do_endvote` over `currentVote.values()`:
`(for, against, abstain)` via the if/elif chain on the three patterns. -/
def countBallots (vs : List String) : Nat × Nat × Nat :=
  vs.foldl (fun acc v =>
    if ballotPlus1 v then (acc.1 + 1, acc.2.1, acc.2.2)
    else if ballotMinus1 v then (acc.1, acc.2.1 + 1, acc.2.2)
    else if ballotZero v then (acc.1, acc.2.1, acc.2.2 + 1)
    else acc) (0, 0, 0)

/-- The outcome branch chain of `do_endvote`, in source order.  `none`
is the fall-through where Python would leave `voteResult` unbound (a
`NameError`); the first two branches are exhaustive so it never occurs. -/
def voteOutcome (vfor vagainst : Nat) (required : Int) : Option (String × String) :=
  if (vfor : Int) - (vagainst : Int) ≥ required then some ("Carried", "Motion carried")
  else if (vfor : Int) - (vagainst : Int) < required then some ("Denied", "Motion denied")
  else if required = 0 then some ("Deadlock", "Motion deadlocked")
  else none

/-- `do_endvote`. -/
def do_endvote (st : MeetingState) (nick line : String) (linenum : Nat) (time_ : String) : MeetingState :=
  if isChair st nick then
    if st.activeVote = "" then st
    else
      let c := countBallots (st.currentVote.map Prod.snd)
      match voteOutcome c.1 c.2.1 st.votesrequired with
      | none => st
      | some (voteResult, motion) =>
        let voteSummary := motion ++ " (For: " ++ toString c.1 ++ ", Against: " ++
          toString c.2.1 ++ ", Abstained: " ++ toString c.2.2 ++ ")"
        let st1 := { st with
          votes := aset st.votes st.activeVote (voteSummary, st.currentVoteStartLine) }
        let st2 := additem st1
          (mkGenericItem .vote nick (st.activeVote ++ " (" ++ voteResult ++ ")") linenum time_)
        { st2 with activeVote := "", currentVote := [], currentVoteStartLine := 0 }
  else st

/-- The loop of `do_voters`: an `everyone`/`everybody`/`all` token
clears the voter list and returns immediately. -/
def votersLoop (st : MeetingState) : List String → MeetingState
  | [] => st
  | tok :: rest =>
    if tok = "everyone" ∨ tok = "everybody" ∨ tok = "all" then { st with voters := [] }
    else if st.voters.contains tok then votersLoop st rest
    else
      let st1 := addnick st tok 0
      votersLoop { st1 with voters := st1.voters ++ [tok] } rest

/-- `do_voters`. -/
def do_voters (st : MeetingState) (nick line : String) : MeetingState :=
  if isChair st nick then votersLoop st (splitCommaSpace line.data) else st

/-- `do_action` (anyone). -/
def do_action (st : MeetingState) (nick line : String) (linenum : Nat) (time_ : String) : MeetingState :=
  additem st (mkGenericItem .action nick line linenum time_)

/-- `do_info` (anyone). -/
def do_info (st : MeetingState) (nick line : String) (linenum : Nat) (time_ : String) : MeetingState :=
  additem st (mkGenericItem .info nick line linenum time_)

/-- `do_idea` (anyone). -/
def do_idea (st : MeetingState) (nick line : String) (linenum : Nat) (time_ : String) : MeetingState :=
  additem st (mkGenericItem .idea nick line linenum time_)

/-- `do_help` (anyone; alias `do_halp`). -/
def do_help (st : MeetingState) (nick line : String) (linenum : Nat) (time_ : String) : MeetingState :=
  additem st (mkGenericItem .help nick line linenum time_)

/-- `do_nick` (anyone): registers each token with zero lines. -/
def do_nick (st : MeetingState) (line : String) : MeetingState :=
  (splitCommaSpace line.data).foldl (fun s tok => addnick s tok 0) st

/-- `do_link` (anyone; also used for implicit URL detection). -/
def do_link (st : MeetingState) (nick line : String) (linenum : Nat) (time_ : String) : MeetingState :=
  additem st (mkLinkItem nick line linenum time_)

/-- `do_endmeeting`.  `time.localtime()` for the closing `do_endvote`
is modelled by the current line timestamp. -/
def do_endmeeting (st : MeetingState) (nick line : String) (linenum : Nat) (time_ : String) : MeetingState :=
  if isChair st nick then
    let st1 := if st.activeVote ≠ "" then do_endvote st nick line linenum time_ else st
    { st1 with endtime := some time_, meetingIsOver := true }
  else st

/-- `do_startmeeting`, step 1: `if not self.owner: self.owner = nick`. -/
def startmeetingOwner (st : MeetingState) (nick : String) : MeetingState :=
  if st.owner = "" then { st with owner := nick } else st

/-- `do_startmeeting`, step 2: set `starttime` when unset (the concrete
timestamp value is external; modelled as `""`). -/
def startmeetingStart (st : MeetingState) : MeetingState :=
  if st.starttime = none then { st with starttime := some "" } else st

/-- `do_startmeeting`: fills `owner`/`starttime` when unset (replay) and
forwards a non-empty payload to `do_meetingtopic`. -/
def do_startmeeting (st : MeetingState) (nick line : String) : MeetingState :=
  let st2 := startmeetingStart (startmeetingOwner st nick)
  if line ≠ "" then do_meetingtopic st2 nick line else st2

/-- The state-affecting handlers reachable through
`getattr(self, "do_" + command)`. -/
inductive Cmd
  | startmeeting | endmeeting | topic | subtopic | meetingtopic | save | done
  | agreed | accepted | rejected | chair | unchair | undo | restrictlogs
  | lurk | unlurk | meetingname | vote | votesrequired | endvote | voters
  | action | info | idea | help | nick | link | unknown
deriving DecidableEq, Repr

/-- Which handler a lowered command name resolves to.  Aliases
(`progress`, `agree`, `accept`, `reject`, `halp`) share their target's
handler.  Command names with no `do_` method, and the handlers whose
whole effect is channel I/O (`commands`, `private_commands`,
`abortmeeting`, `replay`), resolve to `unknown`: no state effect. -/
def cmdOf (cmd : String) : Cmd :=
  if cmd = "startmeeting" then .startmeeting
  else if cmd = "endmeeting" then .endmeeting
  else if cmd = "topic" then .topic
  else if cmd = "subtopic" ∨ cmd = "progress" then .subtopic
  else if cmd = "meetingtopic" then .meetingtopic
  else if cmd = "save" then .save
  else if cmd = "done" then .done
  else if cmd = "agreed" ∨ cmd = "agree" then .agreed
  else if cmd = "accepted" ∨ cmd = "accept" then .accepted
  else if cmd = "rejected" ∨ cmd = "reject" then .rejected
  else if cmd = "chair" then .chair
  else if cmd = "unchair" then .unchair
  else if cmd = "undo" then .undo
  else if cmd = "restrictlogs" then .restrictlogs
  else if cmd = "lurk" then .lurk
  else if cmd = "unlurk" then .unlurk
  else if cmd = "meetingname" then .meetingname
  else if cmd = "vote" then .vote
  else if cmd = "votesrequired" then .votesrequired
  else if cmd = "endvote" then .endvote
  else if cmd = "voters" then .voters
  else if cmd = "action" then .action
  else if cmd = "info" then .info
  else if cmd = "idea" then .idea
  else if cmd = "help" ∨ cmd = "halp" then .help
  else if cmd = "nick" then .nick
  else if cmd = "link" then .link
  else .unknown

/-- The `getattr(self, "do_" + command)` dispatch in `addline`. -/
def dispatch (st : MeetingState) (cmd nick line : String) (linenum : Nat) (time_ : String) : MeetingState :=
  match cmdOf cmd with
  | .startmeeting => do_startmeeting st nick line
  | .endmeeting => do_endmeeting st nick line linenum time_
  | .topic => do_topic st nick line linenum time_
  | .subtopic => do_subtopic st nick line linenum time_
  | .meetingtopic => do_meetingtopic st nick line
  | .save => do_save st nick time_
  | .done => do_done st nick line linenum time_
  | .agreed => do_agreed st nick line linenum time_
  | .accepted => do_accepted st nick line linenum time_
  | .rejected => do_rejected st nick line linenum time_
  | .chair => do_chair st nick line
  | .unchair => do_unchair st nick line
  | .undo => do_undo st nick
  | .restrictlogs => do_restrictlogs st nick
  | .lurk => do_lurk st nick
  | .unlurk => do_unlurk st nick
  | .meetingname => do_meetingname st nick line
  | .vote => do_vote st nick line
  | .votesrequired => do_votesrequired st nick line
  | .endvote => do_endvote st nick line linenum time_
  | .voters => do_voters st nick line
  | .action => do_action st nick line linenum time_
  | .info => do_info st nick line linenum time_
  | .idea => do_idea st nick line linenum time_
  | .help => do_help st nick line linenum time_
  | .nick => do_nick st line
  | .link => do_link st nick line linenum time_
  | .unknown => st

/-- The part of `Meeting.addline` after the raw line has been recorded
and `isop` set: dispatch a recognized command (rebinding `line` to the
payload), otherwise auto-detect URLs, and finally forward a payload
matching the ballot pattern to `doCastVote`. -/
def addlineAfter (st1 : MeetingState) (nick line : String) (linenum : Nat) (time_ : String) : MeetingState :=
  match parseCommand line.data with
  | some (cmd, payload) =>
    let st2 := dispatch st1 (strLower cmd) nick payload linenum time_
    if isBallot payload.data then doCastVote st2 nick payload false else st2
  | none =>
    let st2 :=
      if urlProtocols.contains (String.mk (beforeDoubleSlash line.data)) then
        do_link st1 nick line linenum time_
      else st1
    if isBallot line.data then doCastVote st2 nick line false else st2

/-- `Meeting.addline`, the primary entry point for a new line. -/
def addline (st : MeetingState) (nick line : String) (isop : Bool) (time_ : String) : MeetingState :=
  let p := addrawline st nick line time_
  addlineAfter { p.1 with isop := isop } nick line p.2 time_

/-- A sequence of `addline` calls: each tuple is
`(nick, line, isop, time)`. -/
def runLines (st : MeetingState) (calls : List (String × String × Bool × String)) : MeetingState :=
  calls.foldl (fun s c => addline s c.1 c.2.1 c.2.2.1 c.2.2.2) st

/-! ## Plugin line delivery (plugin.py, MeetBot.doPrivmsg) -/

/-- The `isChair` closure inside `doPrivmsg` (operator status comes from
the channel state rather than from `M.isop`). -/
def pluginIsChair (st : MeetingState) (nick : String) (isop : Bool) : Bool :=
  nick == st.owner || st.chairs.contains nick || isop

/-- The body of `MeetBot.doPrivmsg` for a channel key whose meeting `M`
is already in the cache (plugin.py lines 123-204).  In this case the
`#startmeeting` and `#replay` branches only emit an error and return.
The result is the new cache entry for the key (`none` = deleted);
`fromBotHost` is the `"hellomouse/bin" in host` test. -/
def doPrivmsgCached (M : MeetingState) (nick payload : String) (isop fromBotHost : Bool)
    (time_ : String) : Option MeetingState :=
  if strLower (strTake payload 13) = "#startmeeting" then some M
  else if strLower (strTake payload 7) = "#replay" then some M
  else
    let step :=
      if strLower (strTake payload 11) = "#endmeeting" ∧
          M.meetingIsOver = true ∧ pluginIsChair M nick isop = true then
        (none, M)
      else if strLower (strTake payload 13) = "#abortmeeting" ∧ pluginIsChair M nick isop = true then
        (none, if M.meetingIsOver then M
               else { M with endtime := some time_, meetingIsOver := true })
      else ((some M : Option MeetingState), M)
    if step.2.meetingIsOver then step.1
    else
      let M2 := if fromBotHost then (addrawline step.2 nick payload time_).1
                else addline step.2 nick payload isop time_
      if M2.meetingIsOver then none else some M2

/-! ## Reference allocator (items.py: inbase, makeRSTref) -/

def inbaseChars : List Char := "abcdefghijklmnopqrstuvwxyz".data

/-- `inbase(i, place)` with explicit fuel standing in for the recursion
(the recursive argument `i // 26^(place+1)` strictly decreases, so fuel
`i+1` always suffices).  `none` models the `IndexError` Python raises
when `i % 26^(place+1)` exceeds the alphabet (only possible for
`i ≥ 26^2` at intermediate places). -/
def inbaseAux : Nat → Nat → Nat → Option (List Char)
  | 0, _, _ => none
  | fuel + 1, i, place =>
    let p := inbaseChars.length ^ (place + 1)
    if i / p = 0 then (inbaseChars.get? (i % p)).map (fun c => [c])
    else
      match inbaseAux fuel (i / p) (place + 1) with
      | some pre => (inbaseChars.get? (i % p)).map (fun c => pre ++ [c])
      | none => none

def inbase (i place : Nat) : Option (List Char) := inbaseAux (i + 1) i place

/-- The preferred cross-reference name of `_BaseItem.makeRSTref`:
`nick + time` when the nick ends in an underscore, else `nick-time`. -/
def rstrefBase (nick time_ : String) : String :=
  if nick.data.getLast? == some '_' then nick ++ time_ else nick ++ "-" ++ time_

/-- The collision loop of `makeRSTref` (`while rstref in M.rst_refs`),
with fuel standing in for the unbounded `while`. -/
def allocRefLoop (refs : List String) (base : String) : String → Nat → Nat → Option String
  | _, _, 0 => none
  | cand, count, fuel + 1 =>
    if refs.contains cand then
      match inbase count 0 with
      | some suf => allocRefLoop refs base (base ++ String.mk suf) (count + 1) fuel
      | none => none
    else some cand

/-- `makeRSTref` restricted to its effect on the allocator state: takes
the current `rst_refs` key list, returns the allocated name and the new
key list. -/
def makeRSTref (refs : List String) (base : String) (fuel : Nat) : Option (String × List String) :=
  (allocRefLoop refs base base 0 fuel).map (fun r => (r, refs ++ [r]))

/-! ## Attendee / action-item matching (writers.py) -/

/-- `re.match(r'.*\b%s\b.*' % re.escape(nick), line, re.I)` reduced to
its truth value: does `line` contain `nick`, case-insensitively, with a
word boundary on both sides?  `wholeWordAt nick prev rest` checks for a
match starting at the position after `prev`. -/
def wholeWordAt (nick : List Char) (prev : Option Char) (rest : List Char) : Bool :=
  match nick with
  | [] => isWordO prev != isWordO rest.head?
  | _ =>
    let pre := rest.take nick.length
    let post := rest.drop nick.length
    pre.length == nick.length &&
    pre.map Char.toLower == nick.map Char.toLower &&
    (isWordO prev != isWordO pre.head?) &&
    (isWordO pre.getLast? != isWordO post.head?)

def wwSearch (nick : List Char) : Option Char → List Char → Bool
  | prev, [] => wholeWordAt nick prev []
  | prev, c :: cs => wholeWordAt nick prev (c :: cs) || wwSearch nick (some c) cs

def containsWholeWord (nick line : String) : Bool :=
  wwSearch nick.data none line.data

/-- Stable insertion into a list sorted by `String.toLower`
(`sorted(..., key=lambda x: x.lower())`; Python's sort is stable). -/
def insLower (x : String) : List String → List String
  | [] => [x]
  | y :: ys => if strLower y < strLower x then y :: insLower x ys else x :: y :: ys

def sortByLower : List String → List String
  | [] => []
  | x :: xs => insLower x (sortByLower xs)

/-- One nick of `iterActionItemsNick` (writers.py 142-153), fully
consumed: walks the minutes, sets `assigned` on each action item whose
line matches the nick, and collects the matched lines.  The mutation of
the shared items is modelled by returning the updated minutes. -/
def collectForNick (nick : String) : List MItem → List MItem × List String
  | [] => ([], [])
  | m :: ms =>
    let r := collectForNick nick ms
    if m.kind == ItemKind.action && containsWholeWord nick m.line then
      ({ m with assigned := true } :: r.1, m.line :: r.2)
    else (m :: r.1, r.2)

/-- The item-mutating part of a per-person render pass: the
`iterActionItemsNick` loop over all attendee nicks sorted by lowercase
(as consumed by `get_template`, `HTML.actionItemsPerson`,
`ReST.format`, etc.). -/
def assignPass (attendees : List String) (ms : List MItem) : List MItem :=
  (sortByLower attendees).foldl (fun acc nick => (collectForNick nick acc).1) ms

/-- `_BaseWriter.get_template`'s `ActionItemsPerson` computation
(writers.py 222-239): per-nick buckets of matched action-item lines
(kept when non-empty), then the UNASSIGNED bucket of still-unassigned
action items — appended only when it holds **more than one** item
(`len(thisNick['items']) > 1`).  The default `escape` is the identity.
Also returns the minutes as left mutated by the pass. -/
def getTemplateAIPFull (attendees : List String) (ms : List MItem) :
    List (String × List String) × List MItem :=
  let r := (sortByLower attendees).foldl
    (fun (acc : List (String × List String) × List MItem) nick =>
      let pr := collectForNick nick acc.2
      (if pr.2.length > 0 then acc.1 ++ [(nick, pr.2)] else acc.1, pr.1))
    ([], ms)
  let unas := ((r.2.filter (fun m => m.kind == ItemKind.action && !m.assigned)).map
    (fun m => m.line))
  (if unas.length > 1 then r.1 ++ [("UNASSIGNED", unas)] else r.1, r.2)

def getTemplateAIP (attendees : List String) (ms : List MItem) : List (String × List String) :=
  (getTemplateAIPFull attendees ms).1

/-! ## HTML summary nesting (writers.py, HTML.meetingItems)

Every string the method appends is abstracted to its `<ol>`/`<li>`
open/close tags; nothing else in the emitted strings contains those tags
(the item templates use only `b`/`i`/`span`/`a`, and user text is
HTML-escaped).  Each Python append maps to the tokens it contributes, in
order. -/

inductive HTok
  | olOpen | olClose | liOpen | liClose
deriving DecidableEq, Repr

/-- The loop state of `HTML.meetingItems`. -/
structure HState where
  haveTopic : Bool := false
  haveSubtopic : Bool := false
  inSublist : Bool := false
  inSubsublist : Bool := false
deriving DecidableEq, Repr

/-- One iteration of the `for m in M.minutes` loop: the emitted tokens
and the new state.  The built `item` string (`<li>...`, possibly with a
trailing `</li>`) is appended after any structural opens/closes. -/
def htmlStep (s : HState) (k : ItemKind) : HState × List HTok :=
  if k = .topic then
    let t1 := if s.inSublist then [HTok.olClose] else []
    let t2 := if s.haveSubtopic then
        (if s.inSubsublist then [HTok.olClose] else []) ++ [HTok.liClose]
      else []
    let t3 := if s.haveTopic then [HTok.liClose] else []
    ({ haveTopic := true, haveSubtopic := false, inSublist := false, inSubsublist := false },
     t1 ++ t2 ++ t3 ++ [HTok.liOpen])
  else if k = .subtopic then
    let t1 := if !s.inSublist then
        (if !s.haveTopic then [HTok.liOpen] else []) ++ [HTok.olOpen]
      else []
    ({ haveTopic := s.haveTopic || !s.inSublist, haveSubtopic := true,
       inSublist := true, inSubsublist := s.inSubsublist },
     t1 ++ [HTok.liOpen])
  else
    let t1 := if !s.inSublist then
        (if !s.haveTopic then [HTok.liOpen] else []) ++ [HTok.olOpen]
      else []
    let t2 := if s.haveSubtopic && !s.inSubsublist then [HTok.olOpen] else []
    ({ haveTopic := s.haveTopic || !s.inSublist, haveSubtopic := s.haveSubtopic,
       inSublist := true, inSubsublist := s.inSubsublist || s.haveSubtopic },
     t1 ++ t2 ++ [HTok.liOpen, HTok.liClose])

/-- The closing block after the loop. -/
def htmlFlush (s : HState) : List HTok :=
  (if s.haveSubtopic then
     (if s.inSubsublist then [HTok.olClose] else []) ++ [HTok.liClose]
   else []) ++
  (if s.inSublist then [HTok.olClose] else []) ++
  (if s.haveTopic then [HTok.liClose] else []) ++
  [HTok.olClose]

/-- The loop of `HTML.meetingItems` from an arbitrary starting state
and already-emitted tokens. -/
def htmlFold (ms : List MItem) (s : HState) (ts : List HTok) : HState × List HTok :=
  ms.foldl (fun acc m =>
    let x := htmlStep acc.1 m.kind
    (x.1, acc.2 ++ x.2)) (s, ts)

/-- `HTML.meetingItems` as its `<ol>`/`<li>` token stream (the leading
`<h3>` heading contributes no tokens; the opening
`<ol class="summary">` is the initial `olOpen`). -/
def htmlMeetingItems (ms : List MItem) : List HTok :=
  (htmlFold ms {} [HTok.olOpen]).2 ++ htmlFlush (htmlFold ms {} [HTok.olOpen]).1

/-- Proper-nesting check: a stack machine over the token stream
(`true` = an open `<ol>`, `false` = an open `<li>`). -/
def checkNest : List HTok → List Bool → Bool
  | [], [] => true
  | [], _ :: _ => false
  | HTok.olOpen :: ts, st => checkNest ts (true :: st)
  | HTok.liOpen :: ts, st => checkNest ts (false :: st)
  | HTok.olClose :: ts, true :: st => checkNest ts st
  | HTok.liClose :: ts, false :: st => checkNest ts st
  | HTok.olClose :: _, _ => false
  | HTok.liClose :: _, _ => false

def countTok (t : HTok) (ts : List HTok) : Nat := (ts.filter (· = t)).length

/-! ## Concrete example data used by witnesses and counterexamples -/

def exSt : MeetingState := initMeeting "#chan" "alice" "bot" ""

def exStVote : MeetingState := { exSt with activeVote := "P", currentVoteStartLine := 5 }

def exStOver : MeetingState := { exSt with meetingIsOver := true }

def exActionBob : MItem := mkGenericItem .action "alice" "bob: fix the build" 1 "10:00"

def exActionPlain : MItem := mkGenericItem .action "alice" "fix the build" 1 "10:00"

def exActionPlain2 : MItem := mkGenericItem .action "alice" "and another" 2 "10:01"

/-- The item sequence `[Topic("T1"), Action("a1"), Subtopic("S1"), Action("a2")]`. -/
def exHtmlSeq : List MItem :=
  [mkTopicItem .topic "n" "T1" 1 "t", mkGenericItem .action "n" "a1" 2 "t",
   mkTopicItem .subtopic "n" "S1" 3 "t", mkGenericItem .action "n" "a2" 4 "t"]

/-- A Topic followed by two consecutive Subtopics. -/
def exHtmlSeqTSS : List MItem :=
  [mkTopicItem .topic "n" "T1" 1 "t", mkTopicItem .subtopic "n" "S1" 2 "t",
   mkTopicItem .subtopic "n" "S2" 3 "t"]

/-! # Theorems

First a block of shared helper lemmas about the embedded operations,
then one theorem (plus witness / counterexample) per claim. -/

theorem foldl_pres {α σ β : Type} (g : σ → β) (f : σ → α → σ)
    (h : ∀ s a, g (f s a) = g s) :
    ∀ (l : List α) (s : σ), g (l.foldl f s) = g s
  | [], _ => rfl
  | a :: l, s => by rw [List.foldl_cons, foldl_pres g f h l (f s a), h]

/-! ### The transcript is untouched by every command handler -/

theorem lines_addnick (st : MeetingState) (n : String) (k : Nat) :
    (addnick st n k).lines = st.lines := by
  unfold addnick; split <;> rfl

theorem lines_do_topic (st : MeetingState) (n l : String) (ln : Nat) (t : String) :
    (do_topic st n l ln t).lines = st.lines := by
  unfold do_topic additem; split <;> rfl

theorem lines_do_subtopic (st : MeetingState) (n l : String) (ln : Nat) (t : String) :
    (do_subtopic st n l ln t).lines = st.lines := by
  unfold do_subtopic additem; split <;> rfl

theorem lines_do_meetingtopic (st : MeetingState) (n l : String) :
    (do_meetingtopic st n l).lines = st.lines := by
  unfold do_meetingtopic; split <;> (try split) <;> rfl

theorem lines_do_save (st : MeetingState) (n t : String) :
    (do_save st n t).lines = st.lines := by
  unfold do_save; split <;> rfl

theorem lines_do_done (st : MeetingState) (n l : String) (ln : Nat) (t : String) :
    (do_done st n l ln t).lines = st.lines := by
  unfold do_done additem; split <;> rfl

theorem lines_do_agreed (st : MeetingState) (n l : String) (ln : Nat) (t : String) :
    (do_agreed st n l ln t).lines = st.lines := by
  unfold do_agreed additem; split <;> rfl

theorem lines_do_accepted (st : MeetingState) (n l : String) (ln : Nat) (t : String) :
    (do_accepted st n l ln t).lines = st.lines := by
  unfold do_accepted additem; split <;> rfl

theorem lines_do_rejected (st : MeetingState) (n l : String) (ln : Nat) (t : String) :
    (do_rejected st n l ln t).lines = st.lines := by
  unfold do_rejected additem; split <;> rfl

theorem lines_chairStep (st : MeetingState) (tok : String) :
    (chairStep st tok).lines = st.lines := by
  unfold chairStep
  split
  · rfl
  · show (addnick st tok 0).lines = st.lines
    exact lines_addnick st tok 0

theorem lines_do_chair (st : MeetingState) (n l : String) :
    (do_chair st n l).lines = st.lines := by
  unfold do_chair
  split
  · exact foldl_pres (fun s => s.lines) chairStep lines_chairStep _ st
  · rfl

theorem lines_do_unchair (st : MeetingState) (n l : String) :
    (do_unchair st n l).lines = st.lines := by
  unfold do_unchair
  split
  · exact foldl_pres (fun s => s.lines)
      (fun s tok => { s with chairs := s.chairs.filter (· ≠ tok) })
      (fun _ _ => rfl) _ st
  · rfl

theorem lines_do_undo (st : MeetingState) (n : String) :
    (do_undo st n).lines = st.lines := by
  unfold do_undo; split <;> (try split) <;> rfl

theorem lines_do_restrictlogs (st : MeetingState) (n : String) :
    (do_restrictlogs st n).lines = st.lines := by
  unfold do_restrictlogs; split <;> rfl

theorem lines_do_lurk (st : MeetingState) (n : String) :
    (do_lurk st n).lines = st.lines := by
  unfold do_lurk; split <;> rfl

theorem lines_do_unlurk (st : MeetingState) (n : String) :
    (do_unlurk st n).lines = st.lines := by
  unfold do_unlurk; split <;> rfl

theorem lines_do_meetingname (st : MeetingState) (n l : String) :
    (do_meetingname st n l).lines = st.lines := by
  unfold do_meetingname; split <;> rfl

theorem lines_do_vote (st : MeetingState) (n l : String) :
    (do_vote st n l).lines = st.lines := by
  unfold do_vote; split <;> (try split) <;> rfl

theorem lines_do_votesrequired (st : MeetingState) (n l : String) :
    (do_votesrequired st n l).lines = st.lines := by
  unfold do_votesrequired; split <;> rfl

theorem lines_do_endvote (st : MeetingState) (n l : String) (ln : Nat) (t : String) :
    (do_endvote st n l ln t).lines = st.lines := by
  unfold do_endvote additem
  split
  · split
    · rfl
    · dsimp only
      split
      · rfl
      · rfl
  · rfl

theorem lines_votersLoop (toks : List String) :
    ∀ st : MeetingState, (votersLoop st toks).lines = st.lines := by
  induction toks with
  | nil => intro st; rfl
  | cons tok rest ih =>
    intro st
    unfold votersLoop
    split
    · rfl
    · split
      · exact ih st
      · rw [ih]
        exact lines_addnick st tok 0

theorem lines_do_voters (st : MeetingState) (n l : String) :
    (do_voters st n l).lines = st.lines := by
  unfold do_voters
  split
  · exact lines_votersLoop _ st
  · rfl

theorem lines_do_action (st : MeetingState) (n l : String) (ln : Nat) (t : String) :
    (do_action st n l ln t).lines = st.lines := rfl

theorem lines_do_info (st : MeetingState) (n l : String) (ln : Nat) (t : String) :
    (do_info st n l ln t).lines = st.lines := rfl

theorem lines_do_idea (st : MeetingState) (n l : String) (ln : Nat) (t : String) :
    (do_idea st n l ln t).lines = st.lines := rfl

theorem lines_do_help (st : MeetingState) (n l : String) (ln : Nat) (t : String) :
    (do_help st n l ln t).lines = st.lines := rfl

theorem lines_do_nick (st : MeetingState) (l : String) :
    (do_nick st l).lines = st.lines := by
  unfold do_nick
  exact foldl_pres (fun s => s.lines) _ (fun s a => lines_addnick s a 0) _ st

theorem lines_do_link (st : MeetingState) (n l : String) (ln : Nat) (t : String) :
    (do_link st n l ln t).lines = st.lines := rfl

theorem lines_do_endmeeting (st : MeetingState) (n l : String) (ln : Nat) (t : String) :
    (do_endmeeting st n l ln t).lines = st.lines := by
  unfold do_endmeeting
  split
  · show (if st.activeVote ≠ "" then do_endvote st n l ln t else st).lines = st.lines
    split
    · exact lines_do_endvote st n l ln t
    · rfl
  · rfl

theorem lines_startmeetingOwner (st : MeetingState) (n : String) :
    (startmeetingOwner st n).lines = st.lines := by
  unfold startmeetingOwner; split <;> rfl

theorem lines_startmeetingStart (st : MeetingState) :
    (startmeetingStart st).lines = st.lines := by
  unfold startmeetingStart; split <;> rfl

theorem lines_do_startmeeting (st : MeetingState) (n l : String) :
    (do_startmeeting st n l).lines = st.lines := by
  unfold do_startmeeting
  split
  · rw [lines_do_meetingtopic, lines_startmeetingStart, lines_startmeetingOwner]
  · rw [lines_startmeetingStart, lines_startmeetingOwner]

theorem lines_dispatch (st : MeetingState) (cmd n l : String) (ln : Nat) (t : String) :
    (dispatch st cmd n l ln t).lines = st.lines := by
  unfold dispatch
  cases cmdOf cmd <;>
    first
    | rfl
    | exact lines_do_startmeeting ..
    | exact lines_do_endmeeting ..
    | exact lines_do_topic ..
    | exact lines_do_subtopic ..
    | exact lines_do_meetingtopic ..
    | exact lines_do_save ..
    | exact lines_do_done ..
    | exact lines_do_agreed ..
    | exact lines_do_accepted ..
    | exact lines_do_rejected ..
    | exact lines_do_chair ..
    | exact lines_do_unchair ..
    | exact lines_do_undo ..
    | exact lines_do_restrictlogs ..
    | exact lines_do_lurk ..
    | exact lines_do_unlurk ..
    | exact lines_do_meetingname ..
    | exact lines_do_vote ..
    | exact lines_do_votesrequired ..
    | exact lines_do_endvote ..
    | exact lines_do_voters ..
    | exact lines_do_action ..
    | exact lines_do_info ..
    | exact lines_do_idea ..
    | exact lines_do_help ..
    | exact lines_do_nick ..
    | exact lines_do_link ..

theorem lines_doCastVote (st : MeetingState) (n l : String) (p : Bool) :
    (doCastVote st n l p).lines = st.lines := by
  unfold doCastVote
  split
  · split
    · split <;> rfl
    · rfl
  · rfl

theorem lines_addlineAfter (st1 : MeetingState) (nick line : String) (ln : Nat) (t : String) :
    (addlineAfter st1 nick line ln t).lines = st1.lines := by
  unfold addlineAfter
  split
  · dsimp only
    split
    · rw [lines_doCastVote, lines_dispatch]
    · exact lines_dispatch ..
  · dsimp only
    split
    · rw [lines_doCastVote]
      split
      · exact lines_do_link ..
      · rfl
    · split
      · exact lines_do_link ..
      · rfl

theorem addline_lines (st : MeetingState) (nick line : String) (isop : Bool) (t : String) :
    (addline st nick line isop t).lines = st.lines ++ [mkLogline nick line t] := by
  unfold addline
  rw [lines_addlineAfter]
  show (addnick st nick 1).lines ++ [mkLogline nick line t] = st.lines ++ [mkLogline nick line t]
  rw [lines_addnick]

/-- C1: every `submit_line` (`addline`) call appends exactly one entry
to the transcript whatever the line's classification, the line number
returned by `addrawline` equals the new transcript length, and line
numbers are 1-based and strictly increasing across a sequence of calls
(each call's number is the previous length plus one). -/
theorem c1_transcript_growth :
    ∀ (st : MeetingState) (nick line : String) (isop : Bool) (t : String),
      (addline st nick line isop t).lines = st.lines ++ [mkLogline nick line t] ∧
      (addrawline st nick line t).2 = st.lines.length + 1 ∧
      ∀ calls, (runLines st calls).lines.length = st.lines.length + calls.length := by
  intro st nick line isop t
  refine ⟨addline_lines st nick line isop t, ?_, ?_⟩
  · show ((addnick st nick 1).lines ++ [mkLogline nick line t]).length = st.lines.length + 1
    rw [List.length_append, lines_addnick]
    rfl
  · intro calls
    induction calls generalizing st with
    | nil => rfl
    | cons c rest ih =>
      show (runLines (addline st c.1 c.2.1 c.2.2.1 c.2.2.2) rest).lines.length = _
      rw [ih, addline_lines, List.length_append]
      simp [Nat.add_assoc, Nat.add_comm 1 rest.length]

/-! ### C3: chair-only handlers are strict no-ops for non-chairs -/

/-- C3: each of the nineteen chair-only handlers (topic, subtopic,
meetingtopic, save, done, agreed, accepted, rejected, chair, unchair,
undo, restrictlogs, lurk, unlurk, meetingname, vote, votesrequired,
endvote, voters), invoked by a nick that is not the owner, not in the
chair set and not flagged operator, returns the session state unchanged:
no minute item added or removed, no field modified. -/
theorem c3_chair_only_noop (st : MeetingState) (nick line : String) (ln : Nat) (t : String)
    (h : isChair st nick = false) :
    do_topic st nick line ln t = st ∧
    do_subtopic st nick line ln t = st ∧
    do_meetingtopic st nick line = st ∧
    do_save st nick t = st ∧
    do_done st nick line ln t = st ∧
    do_agreed st nick line ln t = st ∧
    do_accepted st nick line ln t = st ∧
    do_rejected st nick line ln t = st ∧
    do_chair st nick line = st ∧
    do_unchair st nick line = st ∧
    do_undo st nick = st ∧
    do_restrictlogs st nick = st ∧
    do_lurk st nick = st ∧
    do_unlurk st nick = st ∧
    do_meetingname st nick line = st ∧
    do_vote st nick line = st ∧
    do_votesrequired st nick line = st ∧
    do_endvote st nick line ln t = st ∧
    do_voters st nick line = st := by
  have h' : ¬ (isChair st nick = true) := by simp [h]
  simp only [do_topic, do_subtopic, do_meetingtopic, do_save, do_done, do_agreed,
    do_accepted, do_rejected, do_chair, do_unchair, do_undo, do_restrictlogs, do_lurk,
    do_unlurk, do_meetingname, do_vote, do_votesrequired, do_endvote, do_voters,
    if_neg h']
  simp

theorem c3_chair_only_noop_witness :
    do_topic exSt "mallory" "x" 1 "10:00" = exSt ∧
    do_subtopic exSt "mallory" "x" 1 "10:00" = exSt ∧
    do_meetingtopic exSt "mallory" "x" = exSt ∧
    do_save exSt "mallory" "10:00" = exSt ∧
    do_done exSt "mallory" "x" 1 "10:00" = exSt ∧
    do_agreed exSt "mallory" "x" 1 "10:00" = exSt ∧
    do_accepted exSt "mallory" "x" 1 "10:00" = exSt ∧
    do_rejected exSt "mallory" "x" 1 "10:00" = exSt ∧
    do_chair exSt "mallory" "x" = exSt ∧
    do_unchair exSt "mallory" "x" = exSt ∧
    do_undo exSt "mallory" = exSt ∧
    do_restrictlogs exSt "mallory" = exSt ∧
    do_lurk exSt "mallory" = exSt ∧
    do_unlurk exSt "mallory" = exSt ∧
    do_meetingname exSt "mallory" "x" = exSt ∧
    do_vote exSt "mallory" "x" = exSt ∧
    do_votesrequired exSt "mallory" "x" = exSt ∧
    do_endvote exSt "mallory" "x" 1 "10:00" = exSt ∧
    do_voters exSt "mallory" "x" = exSt :=
  c3_chair_only_noop exSt "mallory" "x" 1 "10:00" (by decide)

/-! ### C4: ballot casting -/

theorem alookup_aset_self {β : Type} (l : List (String × β)) (k : String) (v : β) :
    alookup (aset l k v) k = some v := by
  induction l with
  | nil => simp [aset, alookup]
  | cons p t ih =>
    obtain ⟨a, b⟩ := p
    unfold aset
    split
    · simp [alookup]
    · unfold alookup
      rw [if_neg (by assumption)]
      exact ih

theorem length_aset_of_mem {β : Type} (l : List (String × β)) (k : String) (v : β)
    (h : (alookup l k).isSome = true) : (aset l k v).length = l.length := by
  induction l with
  | nil => simp [alookup] at h
  | cons p t ih =>
    obtain ⟨a, b⟩ := p
    unfold aset
    split
    · simp
    · unfold alookup at h
      rw [if_neg (by assumption)] at h
      simp [ih h]

theorem alookup_pvAppend_self (l : List (String × List String)) (k v : String)
    (old : List String) (h : alookup l k = some old) :
    alookup (pvAppend l k v) k = some (old ++ [v]) := by
  induction l with
  | nil => simp [alookup] at h
  | cons p t ih =>
    obtain ⟨a, b⟩ := p
    by_cases hak : a = k
    · subst hak
      unfold alookup at h
      rw [if_pos rfl] at h
      cases h
      unfold pvAppend
      rw [if_pos rfl]
      unfold alookup
      rw [if_pos rfl]
    · unfold pvAppend
      rw [if_neg hak]
      unfold alookup at h ⊢
      rw [if_neg hak] at h ⊢
      exact ih h

theorem doCastVote_closed (st : MeetingState) (n l : String) (p : Bool)
    (h : st.activeVote = "") : doCastVote st n l p = st := by
  unfold doCastVote
  split
  · rw [if_neg (by simp [h])]
  · rfl

theorem doCastVote_open_priv (st : MeetingState) (n l : String)
    (hopen : st.activeVote ≠ "")
    (helig : st.voters = [] ∨ st.voters.contains n = true) :
    doCastVote st n l true = { st with currentVote := aset st.currentVote n l } := by
  unfold doCastVote
  rw [if_pos helig, if_pos hopen]
  rfl

theorem doCastVote_open_pub (st : MeetingState) (n l : String)
    (hopen : st.activeVote ≠ "")
    (helig : st.voters = [] ∨ st.voters.contains n = true) :
    doCastVote st n l false =
      { st with currentVote := aset st.currentVote n l,
                publicVoters := pvAppend st.publicVoters st.activeVote n } := by
  unfold doCastVote
  rw [if_pos helig, if_pos hopen]
  rfl

/-- C4: casting a ballot is a no-op while no round is open; with a round
open and the voter either unrestricted or eligible, the ballot map entry
for the nick is set, a second ballot from the same nick overwrites it
without growing the tally map, and every non-private cast appends the
nick to the round's public-cast list, without deduplication. -/
theorem c4_cast_vote (st : MeetingState) (nick l1 l2 : String) (pv : List String)
    (hopen : st.activeVote ≠ "")
    (helig : st.voters = [] ∨ st.voters.contains nick = true)
    (hkey : alookup st.publicVoters st.activeVote = some pv) :
    (∀ (st0 : MeetingState) (n3 l3 : String) (p3 : Bool),
        st0.activeVote = "" → doCastVote st0 n3 l3 p3 = st0) ∧
    (∀ p : Bool, alookup (doCastVote st nick l1 p).currentVote nick = some l1) ∧
    (∀ p : Bool,
        alookup (doCastVote (doCastVote st nick l1 p) nick l2 p).currentVote nick = some l2 ∧
        (doCastVote (doCastVote st nick l1 p) nick l2 p).currentVote.length =
          (doCastVote st nick l1 p).currentVote.length) ∧
    alookup (doCastVote st nick l1 false).publicVoters st.activeVote = some (pv ++ [nick]) ∧
    alookup (doCastVote (doCastVote st nick l1 false) nick l2 false).publicVoters
        st.activeVote = some (pv ++ [nick, nick]) := by
  have e1 := doCastVote_open_priv st nick l1 hopen helig
  have e2 := doCastVote_open_pub st nick l1 hopen helig
  have hcv : ∀ p : Bool,
      (doCastVote st nick l1 p).currentVote = aset st.currentVote nick l1 ∧
      (doCastVote st nick l1 p).activeVote = st.activeVote ∧
      (doCastVote st nick l1 p).voters = st.voters := by
    intro p
    cases p
    · rw [e2]; exact ⟨rfl, rfl, rfl⟩
    · rw [e1]; exact ⟨rfl, rfl, rfl⟩
  refine ⟨fun st0 n3 l3 p3 h0 => doCastVote_closed st0 n3 l3 p3 h0, ?_, ?_, ?_, ?_⟩
  · intro p
    rw [(hcv p).1]
    exact alookup_aset_self ..
  · intro p
    obtain ⟨hc, ha, hv⟩ := hcv p
    have hopen2 : (doCastVote st nick l1 p).activeVote ≠ "" := by rw [ha]; exact hopen
    have helig2 : (doCastVote st nick l1 p).voters = [] ∨
        (doCastVote st nick l1 p).voters.contains nick = true := by rw [hv]; exact helig
    have f1 := doCastVote_open_priv (doCastVote st nick l1 p) nick l2 hopen2 helig2
    have f2 := doCastVote_open_pub (doCastVote st nick l1 p) nick l2 hopen2 helig2
    have hcv2 : (doCastVote (doCastVote st nick l1 p) nick l2 p).currentVote =
        aset (doCastVote st nick l1 p).currentVote nick l2 := by
      cases p
      · rw [f2]
      · rw [f1]
    constructor
    · rw [hcv2]
      exact alookup_aset_self ..
    · rw [hcv2]
      apply length_aset_of_mem
      rw [hc, alookup_aset_self]
      rfl
  · rw [e2]
    show alookup (pvAppend st.publicVoters st.activeVote nick) st.activeVote = _
    exact alookup_pvAppend_self _ _ _ _ hkey
  · have hopen2 : (doCastVote st nick l1 false).activeVote ≠ "" := by rw [e2]; exact hopen
    have helig2 : (doCastVote st nick l1 false).voters = [] ∨
        (doCastVote st nick l1 false).voters.contains nick = true := by rw [e2]; exact helig
    have f2 := doCastVote_open_pub (doCastVote st nick l1 false) nick l2 hopen2 helig2
    rw [f2]
    show alookup (pvAppend (doCastVote st nick l1 false).publicVoters
      (doCastVote st nick l1 false).activeVote nick) st.activeVote = _
    have ha : (doCastVote st nick l1 false).activeVote = st.activeVote := by rw [e2]
    have hpvl : alookup (doCastVote st nick l1 false).publicVoters st.activeVote =
        some (pv ++ [nick]) := by
      rw [e2]
      show alookup (pvAppend st.publicVoters st.activeVote nick) st.activeVote = _
      exact alookup_pvAppend_self _ _ _ _ hkey
    rw [ha]
    rw [alookup_pvAppend_self _ _ _ _ hpvl]
    simp

theorem c4_cast_vote_witness :
    (∀ (st0 : MeetingState) (n3 l3 : String) (p3 : Bool),
        st0.activeVote = "" → doCastVote st0 n3 l3 p3 = st0) ∧
    (∀ p : Bool,
        alookup (doCastVote { exStVote with publicVoters := [("P", [])] } "carol" "+1 ok" p
          ).currentVote "carol" = some "+1 ok") ∧
    (∀ p : Bool,
        alookup (doCastVote (doCastVote { exStVote with publicVoters := [("P", [])] }
            "carol" "+1 ok" p) "carol" "-1 no" p).currentVote "carol" = some "-1 no" ∧
        (doCastVote (doCastVote { exStVote with publicVoters := [("P", [])] }
            "carol" "+1 ok" p) "carol" "-1 no" p).currentVote.length =
          (doCastVote { exStVote with publicVoters := [("P", [])] }
            "carol" "+1 ok" p).currentVote.length) ∧
    alookup (doCastVote { exStVote with publicVoters := [("P", [])] } "carol" "+1 ok" false
      ).publicVoters { exStVote with publicVoters := [("P", [])] }.activeVote =
        some ([] ++ ["carol"]) ∧
    alookup (doCastVote (doCastVote { exStVote with publicVoters := [("P", [])] }
        "carol" "+1 ok" false) "carol" "-1 no" false).publicVoters
      { exStVote with publicVoters := [("P", [])] }.activeVote =
        some ([] ++ ["carol", "carol"]) :=
  c4_cast_vote { exStVote with publicVoters := [("P", [])] } "carol" "+1 ok" "-1 no" []
    (by decide) (by decide) (by decide)

/-! ### C2: vote outcome -/

/-- The first two branches of the outcome chain are exhaustive over the
integers, so the `requiredMargin == 0` deadlock branch can never be
reached. -/
theorem voteOutcome_total (f a : Nat) (r : Int) :
    voteOutcome f a r =
      some (if r ≤ (f : Int) - (a : Int) then ("Carried", "Motion carried")
            else ("Denied", "Motion denied")) := by
  unfold voteOutcome
  by_cases h : r ≤ (f : Int) - (a : Int)
  · rw [if_pos h, if_pos h]
  · rw [if_neg h, if_neg h, if_pos (lt_of_not_le h)]

/-- C2 counterexample: ending a vote round with no ballots and required
margin 0 records the outcome "Carried" — the claimed pinned value
"for=0, against=0, requiredMargin=0 yields the Deadlock outcome" is
false on the code, whose `(for-against) >= requiredMargin` branch
already fires on the tie. -/
theorem c2_outcome_cex :
    exStVote.votesrequired = 0 ∧
    exStVote.currentVote = [] ∧
    (do_endvote exStVote "alice" "" 9 "10:01").minutes =
      [mkGenericItem .vote "alice" "P (Carried)" 9 "10:01"] ∧
    alookup (do_endvote exStVote "alice" "" 9 "10:01").votes "P" =
      some ("Motion carried (For: 0, Against: 0, Abstained: 0)", 5) ∧
    voteOutcome 0 0 0 = some ("Carried", "Motion carried") ∧
    voteOutcome 0 0 0 ≠ some ("Deadlock", "Motion deadlocked") ∧
    (do_endvote exStVote "alice" "" 9 "10:01").minutes ≠
      [mkGenericItem .vote "alice" "P (Deadlock)" 9 "10:01"] := by decide

/-- C2 (amended): the outcome chain is evaluated in the stated order,
and the first pinned examples hold ((for,against)=(3,0) with margin 2 is
Carried, (2,1) with margin 2 is Denied); but because the first two
branches are exhaustive, a tie at margin 0 — in particular for=0,
against=0 — is "Carried", and the Deadlock branch is unreachable.
`do_endvote` stores the Vote item with the outcome so computed from the
pattern-counted ballots. -/
theorem c2_outcome_amended (st : MeetingState) (nick l : String) (ln : Nat) (t : String)
    (hch : isChair st nick = true) (hopen : st.activeVote ≠ "") :
    (do_endvote st nick l ln t).minutes = st.minutes ++
      [mkGenericItem .vote nick
        (st.activeVote ++ " (" ++
          (if st.votesrequired ≤
              ((countBallots (st.currentVote.map Prod.snd)).1 : Int) -
                ((countBallots (st.currentVote.map Prod.snd)).2.1 : Int)
           then "Carried" else "Denied") ++ ")") ln t] ∧
    voteOutcome 3 0 2 = some ("Carried", "Motion carried") ∧
    voteOutcome 2 1 2 = some ("Denied", "Motion denied") ∧
    voteOutcome 0 0 0 = some ("Carried", "Motion carried") ∧
    (∀ (f a : Nat) (r : Int), voteOutcome f a r =
        some (if r ≤ (f : Int) - (a : Int) then ("Carried", "Motion carried")
              else ("Denied", "Motion denied"))) := by
  refine ⟨?_, by decide, by decide, by decide, voteOutcome_total⟩
  unfold do_endvote
  rw [if_pos hch, if_neg hopen]
  dsimp only
  rw [voteOutcome_total]
  by_cases h : st.votesrequired ≤
      ((countBallots (st.currentVote.map Prod.snd)).1 : Int) -
        ((countBallots (st.currentVote.map Prod.snd)).2.1 : Int)
  · rw [if_pos h, if_pos h]
    rfl
  · rw [if_neg h, if_neg h]
    rfl

theorem c2_outcome_amended_witness :
    (do_endvote exStVote "alice" "" 9 "10:01").minutes = exStVote.minutes ++
      [mkGenericItem .vote "alice"
        (exStVote.activeVote ++ " (" ++
          (if exStVote.votesrequired ≤
              ((countBallots (exStVote.currentVote.map Prod.snd)).1 : Int) -
                ((countBallots (exStVote.currentVote.map Prod.snd)).2.1 : Int)
           then "Carried" else "Denied") ++ ")") 9 "10:01"] ∧
    voteOutcome 3 0 2 = some ("Carried", "Motion carried") ∧
    voteOutcome 2 1 2 = some ("Denied", "Motion denied") ∧
    voteOutcome 0 0 0 = some ("Carried", "Motion carried") ∧
    (∀ (f a : Nat) (r : Int), voteOutcome f a r =
        some (if r ≤ (f : Int) - (a : Int) then ("Carried", "Motion carried")
              else ("Denied", "Motion denied"))) :=
  c2_outcome_amended exStVote "alice" "" 9 "10:01" (by decide) (by decide)

/-! ### C6: reference allocator -/

theorem append_a_ne (base : String) : base ++ "a" ≠ base := by
  intro h
  have hl : (base ++ "a").length = base.length := by rw [h]
  rw [String.length_append] at hl
  have : ("a" : String).length = 1 := rfl
  omega

theorem allocRefLoop_hit (refs : List String) (base cand : String) (count fuel : Nat)
    (h : refs.contains cand = true) (suf : List Char) (hs : inbase count 0 = some suf) :
    allocRefLoop refs base cand count (fuel + 1) =
      allocRefLoop refs base (base ++ String.mk suf) (count + 1) fuel := by
  conv_lhs => unfold allocRefLoop
  rw [if_pos h, hs]

theorem allocRefLoop_miss (refs : List String) (base cand : String) (count fuel : Nat)
    (h : refs.contains cand = false) :
    allocRefLoop refs base cand count (fuel + 1) = some cand := by
  unfold allocRefLoop
  rw [if_neg (by rw [h]; decide)]

/-- C6 counterexample: the collision counter 26 maps to the suffix
"ba", not the claimed "aa" (`inbase` produces the standard
most-significant-digit-first base-26 numeral). -/
theorem c6_suffix_cex :
    inbase 26 0 ≠ some "aa".data ∧ inbase 26 0 = some "ba".data := by decide

/-- C6 (amended): requesting the same preferred name twice in one
render pass yields first the base name and then base+"a"; the
collision-counter-to-suffix function maps 0 to "a" and 25 to "z", but
26 to "ba" (not "aa"). -/
theorem c6_refalloc_amended (base : String) :
    makeRSTref [] base 2 = some (base, [base]) ∧
    makeRSTref [base] base 2 = some (base ++ "a", [base, base ++ "a"]) ∧
    inbase 0 0 = some "a".data ∧
    inbase 25 0 = some "z".data ∧
    inbase 26 0 = some "ba".data := by
  have hc1 : List.contains [base] base = true := by simp
  have hc2 : List.contains [base] (base ++ String.mk ['a']) = false := by
    simp
    exact append_a_ne base
  refine ⟨rfl, ?_, by decide, by decide, by decide⟩
  have hstep : allocRefLoop [base] base base 0 2 = some (base ++ String.mk ['a']) := by
    rw [allocRefLoop_hit [base] base base 0 1 hc1 ['a'] (by decide)]
    exact allocRefLoop_miss [base] base (base ++ String.mk ['a']) 1 0 hc2
  unfold makeRSTref
  rw [hstep]
  rfl

/-! ### C5: the per-person pass mutates action items -/

theorem collectForNick_fst (n : String) (ms : List MItem) :
    (collectForNick n ms).1 = ms.map (fun m =>
      if m.kind == ItemKind.action && containsWholeWord n m.line
      then { m with assigned := true } else m) := by
  induction ms with
  | nil => rfl
  | cons m t ih =>
    unfold collectForNick
    dsimp only
    split
    · rename_i h
      rw [List.map_cons, if_pos h, ih]
    · rename_i h
      rw [List.map_cons, if_neg h, ih]

theorem assignPass_map (ns : List String) :
    ∀ ms : List MItem, ns.foldl (fun acc nick => (collectForNick nick acc).1) ms =
      ms.map (fun m =>
        if m.kind == ItemKind.action && ns.any (fun n => containsWholeWord n m.line)
        then { m with assigned := true } else m) := by
  induction ns with
  | nil =>
    intro ms
    simp
  | cons n ns ih =>
    intro ms
    rw [List.foldl_cons, collectForNick_fst, ih, List.map_map]
    have hfn : ((fun m : MItem =>
          if m.kind == ItemKind.action && ns.any (fun n2 => containsWholeWord n2 m.line)
          then { m with assigned := true } else m) ∘
        (fun m : MItem =>
          if m.kind == ItemKind.action && containsWholeWord n m.line
          then { m with assigned := true } else m)) =
        (fun m : MItem =>
          if m.kind == ItemKind.action && (n :: ns).any (fun n2 => containsWholeWord n2 m.line)
          then { m with assigned := true } else m) := by
      funext m
      simp only [Function.comp_apply]
      cases hk : m.kind == ItemKind.action <;>
        cases hc : containsWholeWord n m.line <;>
          cases ha : ns.any (fun n2 => containsWholeWord n2 m.line) <;>
            simp [hk, hc, ha]
    rw [hfn]

theorem any_insLower (x : String) (l : List String) (p : String → Bool) :
    (insLower x l).any p = (p x || l.any p) := by
  induction l with
  | nil => rfl
  | cons y ys ih =>
    unfold insLower
    split
    · rw [List.any_cons, ih, List.any_cons]
      cases p x <;> cases p y <;> simp
    · rfl

theorem any_sortByLower (l : List String) (p : String → Bool) :
    (sortByLower l).any p = l.any p := by
  induction l with
  | nil => rfl
  | cons x xs ih =>
    unfold sortByLower
    rw [any_insLower, ih, List.any_cons]

/-- C5 counterexample: one render pass of the per-person grouping
(`get_template`'s `ActionItemsPerson`, consuming
`iterActionItemsNick`) writes the `assigned` flag onto the stored
action item: the minutes after the pass differ from the minutes
before. -/
theorem c5_render_mutates_cex :
    (getTemplateAIPFull ["bob"] [exActionBob]).2 ≠ [exActionBob] ∧
    (getTemplateAIPFull ["bob"] [exActionBob]).2 =
      [{ exActionBob with assigned := true }] := by decide

/-- C5 (amended): the per-person pass does mutate the stored items —
it sets the `assigned` flag on exactly the action items whose text
matches some attendee nick as a case-insensitive whole word (the
"already listed" state is stored on the item, not computed via a local
exclusion set); every other field, and every non-matching item, is left
unchanged, independently of attendee order and duplicates. -/
theorem c5_render_amended (attendees : List String) (ms : List MItem) :
    assignPass attendees ms = ms.map (fun m =>
      if m.kind == ItemKind.action && attendees.any (fun n => containsWholeWord n m.line)
      then { m with assigned := true } else m) := by
  unfold assignPass
  rw [assignPass_map]
  have hfn : (fun m : MItem =>
        if m.kind == ItemKind.action &&
            (sortByLower attendees).any (fun n => containsWholeWord n m.line)
        then { m with assigned := true } else m) =
      (fun m : MItem =>
        if m.kind == ItemKind.action && attendees.any (fun n => containsWholeWord n m.line)
        then { m with assigned := true } else m) := by
    funext m
    rw [any_sortByLower]
  rw [hfn]

/-! ### C10: the template grouping drops a singleton UNASSIGNED bucket -/

/-- C10: evaluation of the code at the failing input.  Whole-word
matching behaves as claimed ("bob" matches, "bobby" does not), and a
matched action item lands once under the matching attendee; but an
action item matching no attendee only appears in the UNASSIGNED bucket
when that bucket holds **more than one** item — with a single unmatched
action item the bucket is dropped (`len(thisNick['items']) > 1` in
`get_template`, writers.py:235, where every other writer tests
non-emptiness). -/
theorem c10_unassigned_dropped :
    containsWholeWord "bob" "bob: fix the build" = true ∧
    containsWholeWord "bob" "bobby: fix the build" = false ∧
    getTemplateAIP ["bob"] [exActionPlain] = [] ∧
    getTemplateAIP ["bob"] [exActionPlain, exActionPlain2] =
      [("UNASSIGNED", ["fix the build", "and another"])] ∧
    getTemplateAIP ["bob"] [exActionBob] = [("bob", ["bob: fix the build"])] := by decide

/-! ### C8: per-nick line counts -/

theorem alookup_aset_ne {β : Type} (l : List (String × β)) (k k2 : String) (v : β)
    (h : k2 ≠ k) : alookup (aset l k v) k2 = alookup l k2 := by
  induction l with
  | nil =>
    simp [aset, alookup]
    intro he
    exact absurd he.symm h
  | cons p t ih =>
    obtain ⟨a, b⟩ := p
    by_cases hak : a = k
    · subst hak
      unfold aset
      rw [if_pos rfl]
      unfold alookup
      rw [if_neg (fun he => h he.symm), if_neg (fun he => h he.symm)]
    · unfold aset
      rw [if_neg hak]
      unfold alookup
      by_cases ha2 : a = k2
      · rw [if_pos ha2, if_pos ha2]
      · rw [if_neg ha2, if_neg ha2]
        exact ih

theorem acount_bump (l : List (String × Nat)) (n : String) (k : Nat) :
    acount (bump l n k) n = acount l n + k := by
  unfold bump acount
  rw [alookup_aset_self]
  rfl

theorem acount_bump_ne (l : List (String × Nat)) (n x : String) (k : Nat) (h : x ≠ n) :
    acount (bump l n k) x = acount l x := by
  unfold bump acount
  rw [alookup_aset_ne _ _ _ _ h]

theorem acount_bump_zero (l : List (String × Nat)) (n x : String) :
    acount (bump l n 0) x = acount l x := by
  by_cases h : x = n
  · subst h
    rw [acount_bump]
    rfl
  · exact acount_bump_ne _ _ _ _ h

theorem acount_addnick_zero (st : MeetingState) (n x : String) :
    acount (addnick st n 0).attendees x = acount st.attendees x := by
  unfold addnick
  split
  · exact acount_bump_zero _ _ _
  · rfl

theorem acount_chairStep (x : String) (st : MeetingState) (tok : String) :
    acount (chairStep st tok).attendees x = acount st.attendees x := by
  unfold chairStep
  split
  · rfl
  · exact acount_addnick_zero st tok x

theorem acount_votersLoop (x : String) (toks : List String) :
    ∀ st : MeetingState, acount (votersLoop st toks).attendees x = acount st.attendees x := by
  induction toks with
  | nil => intro st; rfl
  | cons tok rest ih =>
    intro st
    unfold votersLoop
    split
    · rfl
    · split
      · exact ih st
      · rw [ih]
        exact acount_addnick_zero st tok x

theorem acount_do_chair (st : MeetingState) (n l x : String) :
    acount (do_chair st n l).attendees x = acount st.attendees x := by
  unfold do_chair
  split
  · exact foldl_pres (fun s => acount s.attendees x) chairStep (acount_chairStep x) _ st
  · rfl

theorem acount_do_voters (st : MeetingState) (n l x : String) :
    acount (do_voters st n l).attendees x = acount st.attendees x := by
  unfold do_voters
  split
  · exact acount_votersLoop x _ st
  · rfl

theorem acount_do_nick (st : MeetingState) (l x : String) :
    acount (do_nick st l).attendees x = acount st.attendees x := by
  unfold do_nick
  exact foldl_pres (fun s => acount s.attendees x) _
    (fun s a => acount_addnick_zero s a x) _ st

theorem attendees_do_endvote (st : MeetingState) (n l : String) (ln : Nat) (t : String) :
    (do_endvote st n l ln t).attendees = st.attendees := by
  unfold do_endvote additem
  split
  · split
    · rfl
    · dsimp only
      split
      · rfl
      · rfl
  · rfl

theorem attendees_do_endmeeting (st : MeetingState) (n l : String) (ln : Nat) (t : String) :
    (do_endmeeting st n l ln t).attendees = st.attendees := by
  unfold do_endmeeting
  split
  · show (if st.activeVote ≠ "" then do_endvote st n l ln t else st).attendees = st.attendees
    split
    · exact attendees_do_endvote st n l ln t
    · rfl
  · rfl

theorem attendees_do_startmeeting (st : MeetingState) (n l : String) :
    (do_startmeeting st n l).attendees = st.attendees := by
  have h1 : ∀ s : MeetingState, (startmeetingOwner s n).attendees = s.attendees := by
    intro s; unfold startmeetingOwner; split <;> rfl
  have h2 : ∀ s : MeetingState, (startmeetingStart s).attendees = s.attendees := by
    intro s; unfold startmeetingStart; split <;> rfl
  have h3 : ∀ (s : MeetingState) (l2 : String),
      (do_meetingtopic s n l2).attendees = s.attendees := by
    intro s l2; unfold do_meetingtopic; split <;> (try split) <;> rfl
  unfold do_startmeeting
  split
  · rw [h3, h2, h1]
  · rw [h2, h1]

theorem acount_dispatch (st : MeetingState) (cmd n l : String) (ln : Nat) (t : String)
    (x : String) : acount (dispatch st cmd n l ln t).attendees x = acount st.attendees x := by
  have htop : ∀ s : MeetingState, (do_topic s n l ln t).attendees = s.attendees := by
    intro s; unfold do_topic additem; split <;> rfl
  have hsub : ∀ s : MeetingState, (do_subtopic s n l ln t).attendees = s.attendees := by
    intro s; unfold do_subtopic additem; split <;> rfl
  have hmt : ∀ s : MeetingState, (do_meetingtopic s n l).attendees = s.attendees := by
    intro s; unfold do_meetingtopic; split <;> (try split) <;> rfl
  have hsave : ∀ s : MeetingState, (do_save s n t).attendees = s.attendees := by
    intro s; unfold do_save; split <;> rfl
  have hdone : ∀ s : MeetingState, (do_done s n l ln t).attendees = s.attendees := by
    intro s; unfold do_done additem; split <;> rfl
  have hagr : ∀ s : MeetingState, (do_agreed s n l ln t).attendees = s.attendees := by
    intro s; unfold do_agreed additem; split <;> rfl
  have hacc : ∀ s : MeetingState, (do_accepted s n l ln t).attendees = s.attendees := by
    intro s; unfold do_accepted additem; split <;> rfl
  have hrej : ∀ s : MeetingState, (do_rejected s n l ln t).attendees = s.attendees := by
    intro s; unfold do_rejected additem; split <;> rfl
  have hunch : ∀ s : MeetingState, (do_unchair s n l).attendees = s.attendees := by
    intro s
    unfold do_unchair
    split
    · exact foldl_pres (fun s2 => s2.attendees)
        (fun s2 tok => { s2 with chairs := s2.chairs.filter (· ≠ tok) })
        (fun _ _ => rfl) _ s
    · rfl
  have hundo : ∀ s : MeetingState, (do_undo s n).attendees = s.attendees := by
    intro s; unfold do_undo; split <;> (try split) <;> rfl
  have hrest : ∀ s : MeetingState, (do_restrictlogs s n).attendees = s.attendees := by
    intro s; unfold do_restrictlogs; split <;> rfl
  have hlurk : ∀ s : MeetingState, (do_lurk s n).attendees = s.attendees := by
    intro s; unfold do_lurk; split <;> rfl
  have hunl : ∀ s : MeetingState, (do_unlurk s n).attendees = s.attendees := by
    intro s; unfold do_unlurk; split <;> rfl
  have hname : ∀ s : MeetingState, (do_meetingname s n l).attendees = s.attendees := by
    intro s; unfold do_meetingname; split <;> rfl
  have hvote : ∀ s : MeetingState, (do_vote s n l).attendees = s.attendees := by
    intro s; unfold do_vote; split <;> (try split) <;> rfl
  have hvreq : ∀ s : MeetingState, (do_votesrequired s n l).attendees = s.attendees := by
    intro s; unfold do_votesrequired; split <;> rfl
  unfold dispatch
  cases cmdOf cmd <;>
    first
    | rfl
    | (rw [attendees_do_startmeeting])
    | (rw [attendees_do_endmeeting])
    | (rw [attendees_do_endvote])
    | (rw [htop]) | (rw [hsub]) | (rw [hmt]) | (rw [hsave]) | (rw [hdone])
    | (rw [hagr]) | (rw [hacc]) | (rw [hrej]) | (rw [hunch]) | (rw [hundo])
    | (rw [hrest]) | (rw [hlurk]) | (rw [hunl]) | (rw [hname]) | (rw [hvote])
    | (rw [hvreq])
    | exact acount_do_chair st n l x
    | exact acount_do_voters st n l x
    | exact acount_do_nick st l x

theorem attendees_doCastVote (st : MeetingState) (n l : String) (p : Bool) :
    (doCastVote st n l p).attendees = st.attendees := by
  unfold doCastVote
  split
  · split
    · split <;> rfl
    · rfl
  · rfl

theorem acount_addlineAfter (st1 : MeetingState) (nick line : String) (ln : Nat) (t : String)
    (x : String) : acount (addlineAfter st1 nick line ln t).attendees x =
      acount st1.attendees x := by
  unfold addlineAfter
  split
  · dsimp only
    split
    · rw [attendees_doCastVote, acount_dispatch]
    · exact acount_dispatch ..
  · dsimp only
    split
    · rw [attendees_doCastVote]
      split
      · rfl
      · rfl
    · split
      · rfl
      · rfl

/-- C8 counterexample: a line that parses as a command still increments
the calling nick's attendee line count — `addrawline` registers the
speaker with one line before any command classification. -/
theorem c8_command_counts_cex :
    parseCommand "#info hello".data = some ("info", "hello") ∧
    acount exSt.attendees "alice" = 0 ∧
    acount (addline exSt "alice" "#info hello" false "10:00").attendees "alice" = 1 ∧
    ¬ (acount (addline exSt "alice" "#info hello" false "10:00").attendees "alice" ≤
        acount exSt.attendees "alice") := by
  decide

/-- C8 (amended): every `addline` call — command or not — increments
the calling nick's attendee line count by exactly one (unless the nick
is the bot's own nick); command handlers never add to the count (they
register nicks with zero lines only). -/
theorem c8_counts_amended (st : MeetingState) (nick line : String) (isop : Bool) (t : String)
    (h : nick ≠ st.botNick) :
    acount (addline st nick line isop t).attendees nick = acount st.attendees nick + 1 := by
  unfold addline
  rw [acount_addlineAfter]
  show acount (addnick st nick 1).attendees nick = acount st.attendees nick + 1
  unfold addnick
  rw [if_pos h]
  exact acount_bump st.attendees nick 1

theorem c8_counts_amended_witness :
    acount (addline exSt "carol" "just chatting" false "10:00").attendees "carol" =
      acount exSt.attendees "carol" + 1 :=
  c8_counts_amended exSt "carol" "just chatting" false "10:00" (by decide)

/-! ### C9: the over flag -/

/-- C9 counterexample: `Meeting.addline` itself never checks the over
flag — a recognized command line submitted to a session whose over flag
is set still appends a minute item. -/
theorem c9_over_cex :
    exStOver.meetingIsOver = true ∧
    exStOver.minutes = [] ∧
    (addline exStOver "alice" "#info hello" false "10:00").minutes =
      [mkGenericItem .info "alice" "hello" 1 "10:00"] ∧
    (addline exStOver "alice" "#info hello" false "10:00").minutes ≠
      exStOver.minutes := by decide

/-- C9 (amended): the "once over, no further item mutation" invariant is
enforced by the plugin's line delivery, not by the session object: when
the cached meeting's over flag is set, `doPrivmsg` returns before
calling `addline` (possibly deleting the cache entry), so the session
state is never touched — while a direct `Meeting.addline` call on an
over session still appends items. -/
theorem c9_over_amended (M : MeetingState) (nick payload : String) (isop bh : Bool)
    (t : String) (hover : M.meetingIsOver = true) :
    doPrivmsgCached M nick payload isop bh t = none ∨
    doPrivmsgCached M nick payload isop bh t = some M := by
  unfold doPrivmsgCached
  split
  · right; rfl
  · split
    · right; rfl
    · dsimp only
      by_cases hA : strLower (strTake payload 11) = "#endmeeting" <;>
        by_cases hB : pluginIsChair M nick isop = true <;>
          by_cases hC : strLower (strTake payload 13) = "#abortmeeting" <;>
            simp [hA, hB, hC, hover]

theorem c9_over_amended_witness :
    doPrivmsgCached exStOver "alice" "hi there" false false "10:01" = none ∨
    doPrivmsgCached exStOver "alice" "hi there" false false "10:01" = some exStOver :=
  c9_over_amended exStOver "alice" "hi there" false false "10:01" (by decide)

/-! ### C7: HTML summary nesting -/

theorem countTok_append (tk : HTok) (a b : List HTok) :
    countTok tk (a ++ b) = countTok tk a + countTok tk b := by
  unfold countTok
  rw [List.filter_append, List.length_append]

/-- One loop iteration preserves the `inSubsublist → haveSubtopic`
invariant and shifts the `<ol>` open/close balance exactly by the
change in the `inSublist`/`inSubsublist` flags. -/
theorem htmlStep_ol (s : HState) (k : ItemKind)
    (hinv : s.inSubsublist = true → s.haveSubtopic = true) :
    ((htmlStep s k).1.inSubsublist = true → (htmlStep s k).1.haveSubtopic = true) ∧
    countTok .olOpen (htmlStep s k).2 +
        (if s.inSublist then 1 else 0) + (if s.inSubsublist then 1 else 0) =
      countTok .olClose (htmlStep s k).2 +
        (if (htmlStep s k).1.inSublist then 1 else 0) +
        (if (htmlStep s k).1.inSubsublist then 1 else 0) := by
  rcases s with ⟨ht, hs, sl, ss⟩
  cases k <;> cases ht <;> cases hs <;> cases sl <;> cases ss <;>
    simp_all [htmlStep, countTok]

theorem htmlFlush_ol (s : HState)
    (hinv : s.inSubsublist = true → s.haveSubtopic = true) :
    countTok .olOpen (htmlFlush s) = 0 ∧
    countTok .olClose (htmlFlush s) =
      1 + (if s.inSublist then 1 else 0) + (if s.inSubsublist then 1 else 0) := by
  rcases s with ⟨ht, hs, sl, ss⟩
  cases ht <;> cases hs <;> cases sl <;> cases ss <;>
    simp_all [htmlFlush, countTok]

theorem htmlFold_ol (ms : List MItem) :
    ∀ (s : HState) (ts : List HTok),
      (s.inSubsublist = true → s.haveSubtopic = true) →
      countTok .olOpen ts =
        countTok .olClose ts + 1 + (if s.inSublist then 1 else 0) +
          (if s.inSubsublist then 1 else 0) →
      countTok .olOpen ((htmlFold ms s ts).2 ++ htmlFlush (htmlFold ms s ts).1) =
        countTok .olClose ((htmlFold ms s ts).2 ++ htmlFlush (htmlFold ms s ts).1) := by
  induction ms with
  | nil =>
    intro s ts hinv hcount
    show countTok .olOpen (ts ++ htmlFlush s) = countTok .olClose (ts ++ htmlFlush s)
    obtain ⟨f0, fc⟩ := htmlFlush_ol s hinv
    rw [countTok_append, countTok_append, hcount, f0, fc]
    omega
  | cons m t ih =>
    intro s ts hinv hcount
    obtain ⟨hinv2, hbal⟩ := htmlStep_ol s m.kind hinv
    have hfold : htmlFold (m :: t) s ts =
        htmlFold t (htmlStep s m.kind).1 (ts ++ (htmlStep s m.kind).2) := rfl
    rw [hfold]
    apply ih _ _ hinv2
    rw [countTok_append, countTok_append, hcount]
    omega

/-- C7 counterexample: the claimed every-open-has-exactly-one-close
property fails in general — a Topic followed by two consecutive
Subtopics emits three `<li>` opens but only two `<li>` closes, and the
stream is not properly nested. -/
theorem c7_nesting_cex :
    countTok .liOpen (htmlMeetingItems exHtmlSeqTSS) = 3 ∧
    countTok .liClose (htmlMeetingItems exHtmlSeqTSS) = 2 ∧
    countTok .liOpen (htmlMeetingItems exHtmlSeqTSS) ≠
      countTok .liClose (htmlMeetingItems exHtmlSeqTSS) ∧
    checkNest (htmlMeetingItems exHtmlSeqTSS) [] = false := by decide

/-- C7 (amended): rendering `[Topic("T1"), Action("a1"),
Subtopic("S1"), Action("a2")]` produces exactly the claimed balanced
nesting — one Topic entry containing a list holding "a1", a nested list
opened at "S1" containing "a2", every level closed exactly once in
reverse order of opening; and for every item sequence, every `<ol>`
list that is opened is closed exactly once (a new Topic closes the open
inner lists and end-of-document closes the rest).  `<li>` entries,
however, are not always matched (see the counterexample). -/
theorem c7_nesting_amended :
    htmlMeetingItems exHtmlSeq =
      [.olOpen, .liOpen, .olOpen, .liOpen, .liClose, .liOpen, .olOpen, .liOpen,
       .liClose, .olClose, .liClose, .olClose, .liClose, .olClose] ∧
    checkNest (htmlMeetingItems exHtmlSeq) [] = true ∧
    ∀ ms : List MItem,
      countTok .olOpen (htmlMeetingItems ms) = countTok .olClose (htmlMeetingItems ms) := by
  refine ⟨by decide, by decide, ?_⟩
  intro ms
  unfold htmlMeetingItems
  exact htmlFold_ol ms {} [HTok.olOpen] (by decide) (by decide)

end Meetingology
